import Mathlib

/-!
Verification of the spending-tracker pipeline (`src/app.py`): bank-format
detection, per-source normalization into canonical transactions, payment-noise
filtering, category grouping, and the aggregations (monthly summary, category
breakdown, spending-over-time series).

Raw tables are embedded as a header list plus rows, where a row is a function
from column name to optional cell text (`none` models a missing/NaN cell).
Amounts are rationals (`Option ℚ`, `none` modelling NaN), dates are a record
of numeric fields (`Option Date`, `none` modelling NaT).
-/

/-- A calendar date as carried by a parsed date cell. -/
structure Date where
  year : Nat
  month : Nat
  day : Nat
deriving DecidableEq

/-- A raw uploaded table: its column headers and its rows.  A row maps a
column name to the cell's text, `none` standing for a missing/NaN cell. -/
structure RawTable where
  headers : List String
  rows : List (String → Option String)

/-- A canonical transaction as produced by a normalizer, before the
`grouped_category` column is added in the upload loop. -/
structure Tx0 where
  date : Option Date
  description : Option String
  category : Option String
  amount : Option ℚ
  account : String
deriving DecidableEq

/-- A canonical transaction after `grouped_category` has been assigned. -/
structure Tx where
  date : Option Date
  description : Option String
  category : Option String
  amount : Option ℚ
  account : String
  grouped_category : String
deriving DecidableEq

/-- Split a character list at every occurrence of a separator. -/
def splitOnChar (sep : Char) : List Char → List (List Char)
  | [] => [[]]
  | x :: xs =>
    match splitOnChar sep xs with
    | [] => [[]]
    | h :: t => if x = sep then [] :: h :: t else (x :: h) :: t

/-- The numeric value of a nonempty all-digit character list. -/
def digitsToNat (l : List Char) : Option Nat :=
  if l.isEmpty then none
  else l.foldl
    (fun acc c => acc.bind (fun a => if c.isDigit then some (a * 10 + (c.toNat - 48)) else none))
    (some 0)

/-- Model of `pd.to_datetime(_, errors='coerce')` on a text cell: an ISO
`YYYY-MM-DD` string parses to a `Date`, anything else coerces to `none`
(NaT). -/
def parseDate (s : String) : Option Date :=
  match splitOnChar '-' s.data with
  | [y, m, d] =>
    match digitsToNat y, digitsToNat m, digitsToNat d with
    | some yn, some mn, some dn =>
      if 1 ≤ mn ∧ mn ≤ 12 ∧ 1 ≤ dn ∧ dn ≤ 31 ∧ yn ≤ 9999 then some ⟨yn, mn, dn⟩ else none
    | _, _, _ => none
  | _ => none

/-- The unsigned part of a numeric cell: digits with an optional fractional
part, scaled by a sign. -/
def parseAmountChars (sign : ℚ) (l : List Char) : Option ℚ :=
  match splitOnChar '.' l with
  | [w] => (digitsToNat w).map (fun n => sign * (n : ℚ))
  | [w, f] =>
    match digitsToNat w, digitsToNat f with
    | some wn, some fn => some (sign * ((wn : ℚ) + (fn : ℚ) / 10 ^ f.length))
    | _, _ => none
  | _ => none

/-- Model of `pd.to_numeric(_, errors='coerce')` on a text cell: an optional
minus sign, digits, and an optional fractional part parse to a rational;
anything else coerces to `none` (NaN). -/
def parseAmount (s : String) : Option ℚ :=
  match s.data with
  | '-' :: rest => parseAmountChars (-1) rest
  | l => parseAmountChars 1 l

/-- One candidate Chase column mapping: the source column renamed to each
canonical field (the dict values in `CHASE_MAPS` are exactly
`date`, `description`, `category`, `amount`). -/
structure ChaseMap where
  dateCol : String
  descCol : String
  catCol : String
  amountCol : String

/-- The two candidate Chase mappings, old format first (`CHASE_MAPS`). -/
def CHASE_MAPS : List ChaseMap :=
  [⟨"Trans Date", "Description", "Category", "Amount"⟩,
   ⟨"Transaction Date", "Description", "Category", "Amount"⟩]

/-- The source columns (dict keys) of a Chase mapping. -/
def chaseCols (m : ChaseMap) : List String :=
  [m.dateCol, m.descCol, m.catCol, m.amountCol]

/-- The presence check `all(col in df.columns for col in mapping.keys())`. -/
def chaseOk (m : ChaseMap) (headers : List String) : Bool :=
  (chaseCols m).all (fun c => decide (c ∈ headers))

/-- One canonical row under a Chase mapping: tolerant date parse, amount
parsed then multiplied by `-1` (NaN propagates), account stamped `Chase`. -/
def chaseRow (m : ChaseMap) (r : String → Option String) : Tx0 :=
  { date := (r m.dateCol).bind parseDate
    description := r m.descCol
    category := r m.catCol
    amount := ((r m.amountCol).bind parseAmount).map (fun a => a * (-1))
    account := "Chase" }

/-- The message of the `ValueError` raised when no Chase mapping applies. -/
def chaseErr : String := "No valid Chase mapping found"

/-- Function `normalize_chase`: try the Chase mappings in order, apply the first whose
source columns are all present; raise `ValueError` otherwise. -/
def normalize_chase (t : RawTable) : Except String (List Tx0) :=
  match CHASE_MAPS.find? (fun m => chaseOk m t.headers) with
  | some m => .ok (t.rows.map (chaseRow m))
  | none => .error chaseErr

/-- The expression `pd.to_numeric(df.get(c, 0), errors='coerce').fillna(0)`: a debit/credit
cell of a Capital One row, coerced to `0` when the column is absent or the
cell missing/unparsable. -/
def caponeField (t : RawTable) (r : String → Option String) (c : String) : ℚ :=
  if c ∈ t.headers then ((r c).bind parseAmount).getD 0 else 0

/-- Function `normalize_capone`: rename via `CAPONE_MAP`, tolerant date parse, amount
`debit - credit` with absent/unparsable columns as zero, account stamped
`Capital One`, missing description/category backfilled with `None`.  If the
table has no `Transaction Date` column, `df['date']` raises `KeyError`. -/
def normalize_capone (t : RawTable) : Except String (List Tx0) :=
  if "Transaction Date" ∈ t.headers then
    .ok (t.rows.map (fun r =>
      { date := (r "Transaction Date").bind parseDate
        description := if "Description" ∈ t.headers then r "Description" else none
        category := if "Category" ∈ t.headers then r "Category" else none
        amount := some (caponeField t r "Debit" - caponeField t r "Credit")
        account := "Capital One" }))
  else .error "'date'"

/-- Function `detect_bank`: `Amount` column means Chase, else `Debit` means Capital
One, else unknown. -/
def detect_bank (t : RawTable) : String :=
  if "Amount" ∈ t.headers then "chase"
  else if "Debit" ∈ t.headers then "capone"
  else "unknown"

/-- The noise phrases (`PAYMENT_PHRASES`). -/
def PAYMENT_PHRASES : List String :=
  ["autopay pymt", "payment thank you", "automatic payment", "returned payment", "reversal"]

/-- The raw-category → grouped-category table (`CATEGORY_MAP`). -/
def CATEGORY_MAP : List (String × String) :=
  [("Groceries", "Groceries"),
   ("Food & Drink", "Dining Out"),
   ("Shopping", "Shopping"),
   ("Merchandise", "Shopping"),
   ("Personal", "Personal/Health"),
   ("Health & Wellness", "Personal/Health"),
   ("Education", "Personal/Health"),
   ("Insurance", "Bills & Utilities"),
   ("Internet", "Bills & Utilities"),
   ("Gas", "Auto & Travel"),
   ("Automotive", "Auto & Travel"),
   ("Travel", "Auto & Travel")]

/-- The expression `category.map(CATEGORY_MAP).fillna('Other')` at one cell: a raw category
(or `none`) resolves through the table, everything unmapped to `Other`. -/
def mapCategory (c : Option String) : String :=
  match c.bind (fun s => CATEGORY_MAP.lookup s) with
  | some g => g
  | none => "Other"

/-- Attach `grouped_category` to a normalized transaction (done in the
upload loop, line 116). -/
def categorize (t : Tx0) : Tx :=
  { date := t.date
    description := t.description
    category := t.category
    amount := t.amount
    account := t.account
    grouped_category := mapCategory t.category }

/-- Whether a pattern matches at the head of a text. -/
def matchesHere : List Char → List Char → Bool
  | [], _ => true
  | _ :: _, [] => false
  | p :: ps, c :: cs => (decide (p = c)) && matchesHere ps cs

/-- Whether a pattern occurs contiguously somewhere in a text. -/
def occursIn (pat : List Char) : List Char → Bool
  | [] => pat.isEmpty
  | c :: cs => matchesHere pat (c :: cs) || occursIn pat cs

/-- Python's substring test `pat in s`. -/
def containsSubstr (s pat : String) : Bool := occursIn pat.data s.data

/-- Python's `str.lower`, character by character. -/
def lowerStr (s : String) : String := ⟨s.data.map Char.toLower⟩

/-- Function `is_payment_row`: `False` on a missing description, otherwise whether the
lower-cased text contains any payment phrase. -/
def is_payment_row (d : Option String) : Bool :=
  match d with
  | none => false
  | some s => PAYMENT_PHRASES.any (fun p => containsSubstr (lowerStr s) p)

/-- The noise filter over the concatenated data (lines 130-131). -/
def filterPayments (txs : List Tx) : List Tx :=
  txs.filter (fun t => !is_payment_row t.description)

/-- A named uploaded file. -/
structure NamedFile where
  name : String
  table : RawTable

/-- One iteration of the upload loop: detect the bank, normalize, attach
`grouped_category`; a failure is the warning text shown for the file. -/
def processFile (f : NamedFile) : Except String (List Tx) :=
  if detect_bank f.table = "chase" then
    match normalize_chase f.table with
    | .ok ts => .ok (ts.map categorize)
    | .error e => .error ("Error normalizing " ++ f.name ++ ": " ++ e)
  else if detect_bank f.table = "capone" then
    match normalize_capone f.table with
    | .ok ts => .ok (ts.map categorize)
    | .error e => .error ("Error normalizing " ++ f.name ++ ": " ++ e)
  else .error ("Unknown format for file: " ++ f.name)

/-- The upload loop over a batch: the concatenated canonical rows of the
files that normalized, and the warnings of the files that did not. -/
def processFiles (files : List NamedFile) : List Tx × List String :=
  match files with
  | [] => ([], [])
  | f :: rest =>
    match processFile f with
    | .ok ts => (ts ++ (processFiles rest).1, (processFiles rest).2)
    | .error w => ((processFiles rest).1, w :: (processFiles rest).2)

/-- The character of a decimal digit. -/
def digitCh (n : Nat) : Char := Char.ofNat (48 + n)

/-- A two-digit zero-padded field, as rendered inside a pandas period or
date string. -/
def pad2 (n : Nat) : List Char := [digitCh (n / 10), digitCh (n % 10)]

/-- A four-digit zero-padded year field. -/
def pad4 (n : Nat) : List Char :=
  [digitCh (n / 1000), digitCh (n / 100 % 10), digitCh (n / 10 % 10), digitCh (n % 10)]

/-- The rendering `str(date.to_period('M'))`: the `YYYY-MM` month key of a date. -/
def monthKey (d : Date) : String := ⟨pad4 d.year ++ ( '-' :: pad2 d.month)⟩

/-- The rendering `str(date.date())`: the `YYYY-MM-DD` day key of a date. -/
def dayKey (d : Date) : String :=
  ⟨pad4 d.year ++ ( '-' :: (pad2 d.month ++ ( '-' :: pad2 d.day)))⟩

/-- The assignment `all_data['month'] = all_data['date'].dt.to_period('M').astype(str)`:
the month column of a row; a null date renders as the string `NaT`. -/
def monthStr (t : Tx) : String :=
  match t.date with
  | some d => monthKey d
  | none => "NaT"

/-- The mask `amount > 0` on a cell: `none` (NaN) compares false. -/
def amtPosB (t : Tx) : Bool :=
  match t.amount with
  | some a => decide (0 < a)
  | none => false

/-- The mask `amount < 0` on a cell: `none` (NaN) compares false. -/
def amtNegB (t : Tx) : Bool :=
  match t.amount with
  | some a => decide (a < 0)
  | none => false

/-- The amount of a row selected by a strict sign filter (always `some`
there). -/
def amt (t : Tx) : ℚ := t.amount.getD 0

/-- The Dashboard monthly summary (lines 137-140): restrict to the selected
month, then spending = sum of positive amounts, income = −(sum of negative
amounts), net = income − spending. -/
def periodSummary (txs : List Tx) (p : String) : ℚ × ℚ × ℚ :=
  let mdf := txs.filter (fun t => decide (monthStr t = p))
  let spending := ((mdf.filter amtPosB).map amt).sum
  let income := -((mdf.filter amtNegB).map amt).sum
  (spending, income, income - spending)

/-- The expression `month_df[month_df['amount'] > 0].groupby('grouped_category')['amount']
.sum()` (line 148): one `(grouped_category, sum)` entry per category that
appears among the positive-amount rows. -/
def categoryBreakdown (txs : List Tx) : List (String × ℚ) :=
  let pos := txs.filter amtPosB
  ((pos.map (fun t => t.grouped_category)).dedup).map
    (fun c => (c, ((pos.filter (fun t => decide (t.grouped_category = c))).map amt).sum))

/-- Chronological comparison of two dates, component-wise. -/
def dateLeB (a b : Date) : Bool :=
  decide (a.year < b.year ∨ (a.year = b.year ∧
    (a.month < b.month ∨ (a.month = b.month ∧ a.day ≤ b.day))))

/-- The mask `(date >= lo) & (date <= hi)`: a null date (NaT) satisfies neither
bound. -/
def inRangeB (lo hi : Date) (d : Option Date) : Bool :=
  match d with
  | some d => dateLeB lo d && dateLeB d hi
  | none => false

/-- The date-range filter applied to a view of the collection
(lines 183-186 and 202-203). -/
def dateRangeFilter (lo hi : Date) (txs : List Tx) : List Tx :=
  txs.filter (fun t => inRangeB lo hi t.date)

/-- The granularity radio button of the Spending Over Time page. -/
inductive Granularity where
  | month
  | day
deriving DecidableEq

/-- The period key of a row under a granularity (lines 205-208); a null
date would render as `NaT`, but such rows are already excluded by the
date-range mask. -/
def periodOf (g : Granularity) (t : Tx) : String :=
  match t.date with
  | some d =>
    match g with
    | .month => monthKey d
    | .day => dayKey d
  | none => "NaT"

/-- The frame `df_exp` of the Spending Over Time page (lines 196-203): positive
amounts restricted to the chosen date range. -/
def tsRows (txs : List Tx) (lo hi : Date) : List Tx :=
  dateRangeFilter lo hi (txs.filter amtPosB)

/-- The expression `df_exp.groupby(['period', 'grouped_category'])['amount'].sum()`
(line 209): one `(period, category, sum)` entry per key pair present. -/
def tsGrouped (txs : List Tx) (lo hi : Date) (g : Granularity) : List (String × String × ℚ) :=
  let rows := tsRows txs lo hi
  ((rows.map (fun t => (periodOf g t, t.grouped_category))).dedup).map
    (fun k => (k.1, k.2,
      ((rows.filter (fun t => decide (periodOf g t = k.1 ∧ t.grouped_category = k.2))).map amt).sum))

/-- The expression `df_exp.groupby('period')['amount'].sum()` (line 210): the per-period
grand totals. -/
def tsTotals (txs : List Tx) (lo hi : Date) (g : Granularity) : List (String × ℚ) :=
  let rows := tsRows txs lo hi
  ((rows.map (periodOf g)).dedup).map
    (fun p => (p, ((rows.filter (fun t => decide (periodOf g t = p))).map amt).sum))

/-- Witness table for C1, old Chase format, one row with `Amount` `-5`. -/
def chaseTblW : RawTable :=
  ⟨["Trans Date", "Description", "Category", "Amount"],
   [fun c =>
      if c = "Trans Date" then some "2024-01-05"
      else if c = "Description" then some "COFFEE"
      else if c = "Category" then some "Groceries"
      else if c = "Amount" then some "-5" else none]⟩

/-- The canonical row of `chaseTblW`. -/
def chaseTxW : Tx0 :=
  ⟨some ⟨2024, 1, 5⟩, some "COFFEE", some "Groceries", some 5, "Chase"⟩

/-- Witness table for C1, Capital One, one row with `Debit` `7.50` and a
missing `Credit` cell. -/
def caponeTblW : RawTable :=
  ⟨["Transaction Date", "Description", "Category", "Debit", "Credit"],
   [fun c =>
      if c = "Transaction Date" then some "2024-01-05"
      else if c = "Debit" then some "7.50" else none]⟩

/-- The canonical row of `caponeTblW`. -/
def caponeTxW : Tx0 :=
  ⟨some ⟨2024, 1, 5⟩, none, none, some (15 / 2), "Capital One"⟩

/-- Witness table for C9: a Chase table whose single row has an unparsable
date. -/
def badDateTblW : RawTable :=
  ⟨["Trans Date", "Description", "Category", "Amount"],
   [fun c =>
      if c = "Trans Date" then some "not a date"
      else if c = "Amount" then some "3" else none]⟩

/-- The canonical row of `badDateTblW`: retained, with a null date. -/
def badDateTxW : Tx0 := ⟨none, none, none, some (-3), "Chase"⟩

/-- The spec example collection: January transactions +50 (Groceries),
+30 (Dining Out), −1000 (income). -/
def janTxs : List Tx :=
  [⟨some ⟨2024, 1, 5⟩, some "store", some "Groceries", some 50, "Chase", "Groceries"⟩,
   ⟨some ⟨2024, 1, 6⟩, some "cafe", some "Food & Drink", some 30, "Chase", "Dining Out"⟩,
   ⟨some ⟨2024, 1, 7⟩, some "payroll", none, some (-1000), "Chase", "Other"⟩]

/-- The table of a file that `detect_bank` tags as Chase but that satisfies
no Chase column mapping (it lacks the date, description and category
columns). -/
def badChaseTbl : RawTable := ⟨["Amount"], []⟩

/-- The three-file witness batch for C3: a good Chase file, the failing
file, a good Capital One file. -/
def goodChaseFileW : NamedFile := ⟨"chase.csv", chaseTblW⟩

/-- The failing file of the witness batch. -/
def badFileW : NamedFile := ⟨"bad.csv", badChaseTbl⟩

/-- The good Capital One file of the witness batch. -/
def goodCaponeFileW : NamedFile := ⟨"capone.csv", caponeTblW⟩

/-! Helper lemmas. -/

theorem lookup_eq_none_of_forall_ne (l : List (String × String)) (s : String)
    (h : ∀ p ∈ l, s ≠ p.1) : l.lookup s = none := by
  induction l with
  | nil => rfl
  | cons a t ih =>
    have hs : s ≠ a.1 := h a (by simp)
    cases a with
    | mk k v =>
      have hb : (s == k) = false := beq_eq_false_iff_ne.mpr hs
      simp only [List.lookup, hb]
      exact ih (fun p hp => h p (by simp [hp]))

theorem is_payment_row_false_iff (d : Option String) :
    is_payment_row d = false ↔
      ∀ s, d = some s → ∀ p ∈ PAYMENT_PHRASES, containsSubstr (lowerStr s) p = false := by
  cases d with
  | none => simp [is_payment_row]
  | some s => simp [is_payment_row, List.any_eq_true]

/-! Claim theorems. -/

/-- C6: format detection is a total deterministic function of the header
set: it returns one of the three tags (never raising), depends only on
header membership, checks the Chase signature (`Amount`) before the Capital
One signature (`Debit`), and returns `unknown` when neither matches. -/
theorem detect_bank_total_deterministic :
    (∀ t : RawTable,
      detect_bank t = "chase" ∨ detect_bank t = "capone" ∨ detect_bank t = "unknown")
    ∧ (∀ t1 t2 : RawTable, (∀ s : String, s ∈ t1.headers ↔ s ∈ t2.headers) →
        detect_bank t1 = detect_bank t2)
    ∧ (∀ t : RawTable, "Amount" ∈ t.headers → detect_bank t = "chase")
    ∧ (∀ t : RawTable, "Amount" ∉ t.headers → "Debit" ∈ t.headers → detect_bank t = "capone")
    ∧ (∀ t : RawTable, "Amount" ∉ t.headers → "Debit" ∉ t.headers →
        detect_bank t = "unknown") := by
  refine ⟨?_, ?_, ?_, ?_, ?_⟩
  · intro t
    unfold detect_bank
    split_ifs <;> simp
  · intro t1 t2 h
    simp only [detect_bank, h "Amount", h "Debit"]
  · intro t h
    simp [detect_bank, h]
  · intro t h1 h2
    simp [detect_bank, h1, h2]
  · intro t h1 h2
    simp [detect_bank, h1, h2]

/-- Witness for C6 at concrete header sets. -/
theorem detect_bank_total_deterministic_witness :
    detect_bank ⟨["Amount", "Debit"], []⟩ = "chase"
    ∧ detect_bank ⟨["Debit"], []⟩ = "capone"
    ∧ detect_bank ⟨["Foo"], []⟩ = "unknown" :=
  ⟨detect_bank_total_deterministic.2.2.1 _ (by decide),
   detect_bank_total_deterministic.2.2.2.1 _ (by decide) (by decide),
   detect_bank_total_deterministic.2.2.2.2 _ (by decide) (by decide)⟩

/-- C4: category mapping is total and deterministic: a raw category in the
table maps to its entry, any other input — including null — maps to
`Other`, and every canonical transaction's `grouped_category` is this map
of its raw category (hence never null). -/
theorem category_map_total :
    (∀ s v : String, (s, v) ∈ CATEGORY_MAP → mapCategory (some s) = v)
    ∧ (∀ s : String, s ∉ CATEGORY_MAP.map Prod.fst → mapCategory (some s) = "Other")
    ∧ mapCategory none = "Other"
    ∧ (∀ t : Tx0, (categorize t).grouped_category = mapCategory t.category) := by
  refine ⟨?_, ?_, rfl, fun t => rfl⟩
  · intro s v h
    fin_cases h <;> rfl
  · intro s h
    have hne : ∀ p ∈ CATEGORY_MAP, s ≠ p.1 := by
      intro p hp hps
      exact h (List.mem_map.mpr ⟨p, hp, hps.symm⟩)
    have : CATEGORY_MAP.lookup s = none := lookup_eq_none_of_forall_ne _ _ hne
    simp [mapCategory, this]

/-- Witness for C4: a mapped label, an unmapped label. -/
theorem category_map_total_witness :
    mapCategory (some "Food & Drink") = "Dining Out" ∧ mapCategory (some "Rent") = "Other" :=
  ⟨category_map_total.1 "Food & Drink" "Dining Out" (by decide),
   category_map_total.2.1 "Rent" (by decide)⟩

/-- C5: the noise filter keeps a transaction iff its lower-cased description
contains no configured phrase; a null description is never excluded; a
description equal to a phrase up to letter case is excluded. -/
theorem noise_filter_spec :
    (∀ (txs : List Tx) (t : Tx), t ∈ filterPayments txs ↔
      (t ∈ txs ∧ ∀ s, t.description = some s →
        ∀ p ∈ PAYMENT_PHRASES, containsSubstr (lowerStr s) p = false))
    ∧ (∀ (txs : List Tx) (t : Tx), t.description = none →
        (t ∈ filterPayments txs ↔ t ∈ txs))
    ∧ (∀ (txs : List Tx) (t : Tx) (s : String), t.description = some s →
        lowerStr s ∈ PAYMENT_PHRASES → t ∉ filterPayments txs) := by
  have key : ∀ (txs : List Tx) (t : Tx), t ∈ filterPayments txs ↔
      (t ∈ txs ∧ ∀ s, t.description = some s →
        ∀ p ∈ PAYMENT_PHRASES, containsSubstr (lowerStr s) p = false) := by
    intro txs t
    rw [filterPayments, List.mem_filter, Bool.not_eq_true', is_payment_row_false_iff]
  refine ⟨key, ?_, ?_⟩
  · intro txs t h
    rw [key]
    simp [h]
  · intro txs t s hdesc hphrase hmem
    have hself : ∀ p ∈ PAYMENT_PHRASES, containsSubstr p p = true := by
      intro p hp
      fin_cases hp <;> decide
    have := ((key txs t).mp hmem).2 s hdesc (lowerStr s) hphrase
    rw [hself (lowerStr s) hphrase] at this
    cases this

/-- Witness for C5: a cased payment description is excluded, a null
description is kept. -/
theorem noise_filter_spec_witness :
    (⟨none, some "AutoPay Pymt", none, some 5, "Chase", "Other"⟩ : Tx)
      ∉ filterPayments [⟨none, some "AutoPay Pymt", none, some 5, "Chase", "Other"⟩]
    ∧ (⟨none, none, none, some 5, "Chase", "Other"⟩ : Tx)
      ∈ filterPayments [⟨none, none, none, some 5, "Chase", "Other"⟩] :=
  ⟨noise_filter_spec.2.2 _ _ "AutoPay Pymt" rfl (by decide),
   (noise_filter_spec.2.1 _ _ rfl).mpr (by simp)⟩

/-- C1: the canonical sign convention. For every Chase row the canonical
amount is the negation of the parsed source `Amount` value (spending, which
Chase records negative, becomes positive); for every Capital One row it is
`debit − credit` with an absent or unparsable debit/credit treated as zero,
and is never null. -/
theorem canonical_amount_sign :
    (∀ (t : RawTable) (txs : List Tx0) (m : ChaseMap),
      CHASE_MAPS.find? (fun mm => chaseOk mm t.headers) = some m →
      normalize_chase t = .ok txs →
      ∀ i (hi : i < t.rows.length) (hi' : i < txs.length),
        (txs.get ⟨i, hi'⟩).amount =
          ((t.rows.get ⟨i, hi⟩ "Amount").bind parseAmount).map (fun a => -a))
    ∧ (∀ (t : RawTable) (txs : List Tx0),
      normalize_capone t = .ok txs →
      ∀ i (hi : i < t.rows.length) (hi' : i < txs.length),
        (txs.get ⟨i, hi'⟩).amount = some
          ((if "Debit" ∈ t.headers
              then ((t.rows.get ⟨i, hi⟩ "Debit").bind parseAmount).getD 0 else 0)
            - (if "Credit" ∈ t.headers
              then ((t.rows.get ⟨i, hi⟩ "Credit").bind parseAmount).getD 0 else 0))) := by
  constructor
  · intro t txs m hfind hnorm i hi hi'
    have hm : m ∈ CHASE_MAPS := List.mem_of_find?_eq_some hfind
    have hamt : m.amountCol = "Amount" := by
      simp [CHASE_MAPS] at hm
      rcases hm with h | h <;> subst h <;> rfl
    have htxs : txs = t.rows.map (chaseRow m) := by
      simp [normalize_chase, hfind] at hnorm
      exact hnorm.symm
    subst htxs
    rw [List.get_eq_getElem, List.get_eq_getElem, List.getElem_map]
    rw [chaseRow, hamt]
    cases (t.rows[i] "Amount").bind parseAmount with
    | none => rfl
    | some a => simp [mul_neg_one]
  · intro t txs hnorm i hi hi'
    rw [normalize_capone] at hnorm
    by_cases hdat : "Transaction Date" ∈ t.headers
    · rw [if_pos hdat, Except.ok.injEq] at hnorm
      subst hnorm
      simp only [List.get_eq_getElem, List.getElem_map, caponeField]
    · rw [if_neg hdat] at hnorm
      cases hnorm

/-- Witness for C1: the Chase `-5` becomes `+5`; the Capital One debit
`7.50` with missing credit becomes `+7.50`. -/
theorem canonical_amount_sign_witness :
    normalize_chase chaseTblW = .ok [chaseTxW]
    ∧ chaseTxW.amount = some 5
    ∧ normalize_capone caponeTblW = .ok [caponeTxW]
    ∧ caponeTxW.amount = some (15 / 2) := by
  have hnormc : normalize_chase chaseTblW = .ok [chaseTxW] := by with_unfolding_all rfl
  have hnormk : normalize_capone caponeTblW = .ok [caponeTxW] := by with_unfolding_all rfl
  refine ⟨hnormc, ?_, hnormk, ?_⟩
  · have h := canonical_amount_sign.1 chaseTblW [chaseTxW]
      ⟨"Trans Date", "Description", "Category", "Amount"⟩ (by with_unfolding_all rfl) hnormc
      0 (by decide) (by decide)
    exact h.trans (by with_unfolding_all rfl)
  · have h := canonical_amount_sign.2 caponeTblW [caponeTxW] hnormk 0 (by decide) (by decide)
    exact h.trans (by with_unfolding_all rfl)

/-- C9: date parsing is tolerant.  A row whose date cell does not parse
still yields a canonical transaction (one output row per input row, for
both sources) whose date is null; `grouped_category` assignment keeps the
date; and a null date fails every date-range mask, so such a row is
excluded from every date-range-filtered view. -/
theorem tolerant_date_null :
    (∀ (t : RawTable) (txs : List Tx0) (m : ChaseMap),
      CHASE_MAPS.find? (fun mm => chaseOk mm t.headers) = some m →
      normalize_chase t = .ok txs →
      txs.length = t.rows.length
      ∧ ∀ i (hi : i < t.rows.length) (hi' : i < txs.length),
          (t.rows.get ⟨i, hi⟩ m.dateCol).bind parseDate = none →
          (txs.get ⟨i, hi'⟩).date = none)
    ∧ (∀ (t : RawTable) (txs : List Tx0),
      normalize_capone t = .ok txs →
      txs.length = t.rows.length
      ∧ ∀ i (hi : i < t.rows.length) (hi' : i < txs.length),
          (t.rows.get ⟨i, hi⟩ "Transaction Date").bind parseDate = none →
          (txs.get ⟨i, hi'⟩).date = none)
    ∧ (∀ t0 : Tx0, (categorize t0).date = t0.date)
    ∧ (∀ (lo hi : Date) (l : List Tx) (t : Tx), t.date = none →
        t ∉ dateRangeFilter lo hi l) := by
  refine ⟨?_, ?_, fun t0 => rfl, ?_⟩
  · intro t txs m hfind hnorm
    have htxs : txs = t.rows.map (chaseRow m) := by
      simp [normalize_chase, hfind] at hnorm
      exact hnorm.symm
    subst htxs
    refine ⟨List.length_map _ _, ?_⟩
    intro i hi hi' hdate
    rw [List.get_eq_getElem, List.getElem_map, chaseRow]
    rw [List.get_eq_getElem] at hdate
    exact hdate
  · intro t txs hnorm
    rw [normalize_capone] at hnorm
    by_cases hdat : "Transaction Date" ∈ t.headers
    · rw [if_pos hdat, Except.ok.injEq] at hnorm
      subst hnorm
      refine ⟨List.length_map _ _, ?_⟩
      intro i hi hi' hdate
      rw [List.get_eq_getElem, List.getElem_map]
      rw [List.get_eq_getElem] at hdate
      exact hdate
    · rw [if_neg hdat] at hnorm
      cases hnorm
  · intro lo hi l t hdate hmem
    rw [dateRangeFilter, List.mem_filter] at hmem
    rw [hdate] at hmem
    cases hmem.2

/-- Witness for C9: the unparsable date yields a retained row with a null
date, and a null-dated transaction is excluded from a date-range view. -/
theorem tolerant_date_null_witness :
    normalize_chase badDateTblW = .ok [badDateTxW]
    ∧ badDateTxW.date = none
    ∧ (categorize badDateTxW) ∉
        dateRangeFilter ⟨2000, 1, 1⟩ ⟨2030, 12, 31⟩ [categorize badDateTxW] := by
  have hnorm : normalize_chase badDateTblW = .ok [badDateTxW] := by with_unfolding_all rfl
  refine ⟨hnorm, ?_, ?_⟩
  · have h := (tolerant_date_null.1 badDateTblW [badDateTxW]
      ⟨"Trans Date", "Description", "Category", "Amount"⟩ (by with_unfolding_all rfl) hnorm).2
      0 (by decide) (by decide) (by decide)
    exact h
  · exact tolerant_date_null.2.2.2 ⟨2000, 1, 1⟩ ⟨2030, 12, 31⟩ _ _
      ((tolerant_date_null.2.2.1 badDateTxW).trans rfl)

theorem amtPosB_true_iff (t : Tx) : amtPosB t = true ↔ 0 < amt t := by
  cases h : t.amount with
  | none => simp [amtPosB, h, amt, lt_irrefl]
  | some a => simp [amtPosB, h, amt]

theorem amtNegB_true_iff (t : Tx) : amtNegB t = true ↔ amt t < 0 := by
  cases h : t.amount with
  | none => simp [amtNegB, h, amt, lt_irrefl]
  | some a => simp [amtNegB, h, amt]

theorem sum_map_filter_eq_sum_ite (l : List Tx) (q : Tx → Bool) (f : Tx → ℚ) :
    ((l.filter q).map f).sum = (l.map (fun t => if q t = true then f t else 0)).sum := by
  induction l with
  | nil => rfl
  | cons a l ih => by_cases h : q a <;> simp [List.filter_cons, h, ih]

theorem sum_map_filter_eq_sum_ite_prop (l : List Tx) (q : Tx → Bool) (Q : Tx → Prop)
    [inst : ∀ t, Decidable (Q t)] (hQ : ∀ t, q t = true ↔ Q t) (f : Tx → ℚ) :
    ((l.filter q).map f).sum = (l.map (fun t => if Q t then f t else 0)).sum := by
  rw [sum_map_filter_eq_sum_ite]
  exact congrArg List.sum (List.map_congr_left (fun t _ => if_congr (hQ t) rfl rfl))

/-- C2: the period summary.  Spending is the sum of the strictly positive
amounts of the rows of the period, income is the negation of the sum of the
strictly negative ones, net is income minus spending; a period with no rows
gives all zeroes; and on the spec's January example the summary is
spending 80, income 1000, net 920. -/
theorem period_summary_spec :
    (∀ (txs : List Tx) (p : String),
      (periodSummary txs p).1
        = (txs.map (fun t => if monthStr t = p ∧ 0 < amt t then amt t else 0)).sum)
    ∧ (∀ (txs : List Tx) (p : String),
      (periodSummary txs p).2.1
        = -((txs.map (fun t => if monthStr t = p ∧ amt t < 0 then amt t else 0)).sum))
    ∧ (∀ (txs : List Tx) (p : String),
      (periodSummary txs p).2.2 = (periodSummary txs p).2.1 - (periodSummary txs p).1)
    ∧ (∀ (txs : List Tx) (p : String), (∀ t ∈ txs, monthStr t ≠ p) →
      periodSummary txs p = (0, 0, 0))
    ∧ periodSummary janTxs "2024-01" = (80, 1000, 920) := by
  refine ⟨?_, ?_, fun txs p => rfl, ?_, by with_unfolding_all rfl⟩
  · intro txs p
    show (((txs.filter (fun t => decide (monthStr t = p))).filter amtPosB).map amt).sum = _
    rw [List.filter_filter]
    exact sum_map_filter_eq_sum_ite_prop txs _ _
      (fun t => by rw [Bool.and_eq_true, amtPosB_true_iff, decide_eq_true_eq, and_comm]) amt
  · intro txs p
    show -((((txs.filter (fun t => decide (monthStr t = p))).filter amtNegB).map amt).sum) = _
    rw [List.filter_filter]
    exact congrArg Neg.neg (sum_map_filter_eq_sum_ite_prop txs _ _
      (fun t => by rw [Bool.and_eq_true, amtNegB_true_iff, decide_eq_true_eq, and_comm]) amt)
  · intro txs p h
    have hfilter : txs.filter (fun t => decide (monthStr t = p)) = [] :=
      List.filter_eq_nil_iff.mpr (fun t ht => by simpa using h t ht)
    simp [periodSummary, hfilter]

/-- Witness for C2's empty-period case: a month with no rows gives zeroes. -/
theorem period_summary_spec_witness :
    periodSummary janTxs "1999-12" = (0, 0, 0) :=
  period_summary_spec.2.2.2.1 janTxs "1999-12" (by decide)

/-- C8: the category breakdown has one entry per grouped category that
occurs among the strictly positive rows — a category with no such row is
omitted entirely — and the entry's value is the sum of the positive
amounts of that category. -/
theorem category_breakdown_spec :
    (∀ (txs : List Tx) (c : String),
      (∃ q, (c, q) ∈ categoryBreakdown txs) ↔
        ∃ t ∈ txs, 0 < amt t ∧ t.grouped_category = c)
    ∧ (∀ (txs : List Tx) (c : String) (q : ℚ), (c, q) ∈ categoryBreakdown txs →
      q = (txs.map (fun t => if t.grouped_category = c ∧ 0 < amt t then amt t else 0)).sum) := by
  have hkey : ∀ (txs : List Tx) (c : String) (q : ℚ), (c, q) ∈ categoryBreakdown txs ↔
      (c ∈ ((txs.filter amtPosB).map (fun t => t.grouped_category)).dedup
        ∧ q = (((txs.filter amtPosB).filter
            (fun t => decide (t.grouped_category = c))).map amt).sum) := by
    intro txs c q
    show (c, q) ∈ List.map _ (((txs.filter amtPosB).map (fun t => t.grouped_category)).dedup) ↔ _
    rw [List.mem_map]
    constructor
    · rintro ⟨c', hc', heq⟩
      rw [Prod.mk.injEq] at heq
      obtain ⟨h1, h2⟩ := heq
      subst h1
      exact ⟨hc', h2.symm⟩
    · rintro ⟨hc, hq⟩
      exact ⟨c, hc, by rw [hq]⟩
  constructor
  · intro txs c
    constructor
    · rintro ⟨q, hq⟩
      have hc := ((hkey txs c q).mp hq).1
      rw [List.mem_dedup, List.mem_map] at hc
      obtain ⟨t, ht, hcat⟩ := hc
      rw [List.mem_filter] at ht
      exact ⟨t, ht.1, (amtPosB_true_iff t).mp ht.2, hcat⟩
    · rintro ⟨t, ht, hpos, hcat⟩
      refine ⟨(((txs.filter amtPosB).filter
          (fun t => decide (t.grouped_category = c))).map amt).sum, ?_⟩
      rw [hkey]
      refine ⟨?_, rfl⟩
      rw [List.mem_dedup, List.mem_map]
      exact ⟨t, List.mem_filter.mpr ⟨ht, (amtPosB_true_iff t).mpr hpos⟩, hcat⟩
  · intro txs c q hq
    have h := ((hkey txs c q).mp hq).2
    rw [List.filter_filter] at h
    rw [h]
    exact sum_map_filter_eq_sum_ite_prop txs _ _
      (fun t => by rw [Bool.and_eq_true, amtPosB_true_iff, decide_eq_true_eq, and_comm]) amt

/-- Witness for C8 on the January example: the `Groceries` entry is 50,
and the income row's category `Other` has no entry. -/
theorem category_breakdown_spec_witness :
    categoryBreakdown janTxs = [("Groceries", 50), ("Dining Out", 30)]
    ∧ (50 : ℚ) = (janTxs.map
        (fun t => if t.grouped_category = "Groceries" ∧ 0 < amt t then amt t else 0)).sum
    ∧ ¬ ∃ t ∈ janTxs, 0 < amt t ∧ t.grouped_category = "Other" := by
  have hbd : categoryBreakdown janTxs = [("Groceries", 50), ("Dining Out", 30)] := by
    with_unfolding_all rfl
  refine ⟨hbd, ?_, ?_⟩
  · exact category_breakdown_spec.2 janTxs "Groceries" 50 (by rw [hbd]; simp)
  · intro hex
    obtain ⟨q, hq⟩ := (category_breakdown_spec.1 janTxs "Other").mpr hex
    rw [hbd] at hq
    simp at hq

/-- C10 (implicit): a transaction with a null or exactly-zero amount
contributes to neither spending nor income, appears in neither the
category breakdown nor the time series, yet stays in the collection. -/
theorem null_zero_amount_inert :
    ∀ (t : Tx) (txs : List Tx) (p : String) (lo hi : Date) (g : Granularity),
      t.amount = none ∨ t.amount = some 0 →
      periodSummary (t :: txs) p = periodSummary txs p
      ∧ categoryBreakdown (t :: txs) = categoryBreakdown txs
      ∧ tsGrouped (t :: txs) lo hi g = tsGrouped txs lo hi g
      ∧ tsTotals (t :: txs) lo hi g = tsTotals txs lo hi g
      ∧ t ∈ t :: txs := by
  intro t txs p lo hi g h
  have hpos : amtPosB t = false := by
    rcases h with h | h
    · simp [amtPosB, h]
    · simp only [amtPosB, h]
      rw [decide_eq_false_iff_not]
      exact lt_irrefl 0
  have hneg : amtNegB t = false := by
    rcases h with h | h
    · simp [amtNegB, h]
    · simp only [amtNegB, h]
      rw [decide_eq_false_iff_not]
      exact lt_irrefl 0
  refine ⟨?_, ?_, ?_, ?_, List.mem_cons_self t txs⟩
  · simp only [periodSummary, List.filter_cons]
    by_cases hm : monthStr t = p
    · simp [hm, hpos, hneg, List.filter_cons]
    · simp [hm]
  · simp only [categoryBreakdown, List.filter_cons, hpos]
    simp
  · simp only [tsGrouped, tsRows, List.filter_cons, hpos]
    simp
  · simp only [tsTotals, tsRows, List.filter_cons, hpos]
    simp

/-- Witness for C10: a null-amount row and a zero-amount row leave the
January summary and breakdown unchanged. -/
theorem null_zero_amount_inert_witness :
    periodSummary (⟨some ⟨2024, 1, 8⟩, some "pending", none, none, "Chase", "Other"⟩ :: janTxs)
        "2024-01" = periodSummary janTxs "2024-01"
    ∧ categoryBreakdown (⟨some ⟨2024, 1, 8⟩, none, none, some 0, "Chase", "Other"⟩ :: janTxs)
        = categoryBreakdown janTxs :=
  ⟨(null_zero_amount_inert _ janTxs "2024-01" ⟨2024, 1, 1⟩ ⟨2024, 12, 31⟩ .month
      (Or.inl rfl)).1,
   (null_zero_amount_inert _ janTxs "x" ⟨2024, 1, 1⟩ ⟨2024, 12, 31⟩ .month
      (Or.inr rfl)).2.1⟩

theorem processFiles_append (a b : List NamedFile) :
    processFiles (a ++ b) = ((processFiles a).1 ++ (processFiles b).1,
      (processFiles a).2 ++ (processFiles b).2) := by
  induction a with
  | nil => simp [processFiles]
  | cons f rest ih =>
    rw [List.cons_append]
    show (match processFile f with
      | .ok ts => (ts ++ (processFiles (rest ++ b)).1, (processFiles (rest ++ b)).2)
      | .error w => ((processFiles (rest ++ b)).1, w :: (processFiles (rest ++ b)).2)) = _
    cases hf : processFile f with
    | ok ts => simp [processFiles, hf, ih]
    | error w => simp [processFiles, hf, ih]

/-- C3, counterexample to "the error names the missing columns": a file
tagged Chase for which no mapping is satisfied raises a `ValueError` whose
message is the fixed string `No valid Chase mapping found`; `Description`
is required by every candidate mapping and missing from the file, yet the
message does not contain it. -/
theorem mapping_incomplete_counterexample :
    detect_bank badChaseTbl = "chase"
    ∧ normalize_chase badChaseTbl = .error chaseErr
    ∧ CHASE_MAPS.all (fun m => decide ("Description" ∈ chaseCols m)) = true
    ∧ decide ("Description" ∈ badChaseTbl.headers) = false
    ∧ containsSubstr chaseErr "Description" = false :=
  ⟨rfl, rfl, rfl, rfl, rfl⟩

/-- C3 (amended): when a Chase-tagged file satisfies no candidate column
mapping, its normalization fails with the fixed `ValueError` message (which
does not name the missing columns); the upload loop skips exactly that
file, records exactly one warning built from that file's name, and the
canonical collection is the concatenation of the successful files'
rows. -/
theorem mapping_incomplete_isolated :
    ∀ (l1 l2 : List NamedFile) (f : NamedFile),
      detect_bank f.table = "chase" →
      CHASE_MAPS.find? (fun m => chaseOk m f.table.headers) = none →
      processFiles (l1 ++ f :: l2)
        = ((processFiles l1).1 ++ (processFiles l2).1,
          (processFiles l1).2
            ++ ("Error normalizing " ++ f.name ++ ": " ++ chaseErr) :: (processFiles l2).2) := by
  intro l1 l2 f hdet hfind
  have hpf : processFile f = .error ("Error normalizing " ++ f.name ++ ": " ++ chaseErr) := by
    rw [processFile, if_pos hdet, normalize_chase, hfind]
  have h2 : processFiles (f :: l2) = ((processFiles l2).1,
      ("Error normalizing " ++ f.name ++ ": " ++ chaseErr) :: (processFiles l2).2) := by
    show (match processFile f with
      | .ok ts => (ts ++ (processFiles l2).1, (processFiles l2).2)
      | .error w => ((processFiles l2).1, w :: (processFiles l2).2)) = _
    rw [hpf]
  rw [processFiles_append, h2]

/-- Witness for C3: in the three-file batch only the failing file is
dropped, with exactly one warning naming it. -/
theorem mapping_incomplete_isolated_witness :
    processFiles [goodChaseFileW, badFileW, goodCaponeFileW]
      = ([categorize chaseTxW, categorize caponeTxW],
        ["Error normalizing bad.csv: " ++ chaseErr]) := by
  have h := mapping_incomplete_isolated [goodChaseFileW] [goodCaponeFileW] badFileW rfl rfl
  rw [show ([goodChaseFileW] ++ badFileW :: [goodCaponeFileW])
      = [goodChaseFileW, badFileW, goodCaponeFileW] from rfl] at h
  rw [h]
  with_unfolding_all rfl

theorem digitCh_lt_iff {a b : Nat} (ha : a < 10) (hb : b < 10) :
    digitCh a < digitCh b ↔ a < b := by
  interval_cases a <;> interval_cases b <;> decide

theorem digitCh_eq_iff {a b : Nat} (ha : a < 10) (hb : b < 10) :
    digitCh a = digitCh b ↔ a = b := by
  interval_cases a <;> interval_cases b <;> decide

theorem char_cons_lt_iff (a b : Char) (l m : List Char) :
    (a :: l : List Char) < (b :: m) ↔ (a < b ∨ (a = b ∧ l < m)) := by
  constructor
  · intro h
    cases h with
    | cons h => exact Or.inr ⟨rfl, h⟩
    | rel h => exact Or.inl h
  · rintro (h | ⟨rfl, h⟩)
    · exact List.Lex.rel h
    · exact List.Lex.cons h

theorem nested_digits4_lt_iff (x3 x2 x1 x0 y3 y2 y1 y0 : Nat) (P : Prop)
    (_hx3 : x3 < 10) (hx2 : x2 < 10) (hx1 : x1 < 10) (hx0 : x0 < 10)
    (_hy3 : y3 < 10) (hy2 : y2 < 10) (hy1 : y1 < 10) (hy0 : y0 < 10) :
    (x3 < y3 ∨ (x3 = y3 ∧ (x2 < y2 ∨ (x2 = y2 ∧
        (x1 < y1 ∨ (x1 = y1 ∧ (x0 < y0 ∨ (x0 = y0 ∧ P))))))))
      ↔ (x3 * 1000 + x2 * 100 + x1 * 10 + x0 < y3 * 1000 + y2 * 100 + y1 * 10 + y0
        ∨ (x3 * 1000 + x2 * 100 + x1 * 10 + x0 = y3 * 1000 + y2 * 100 + y1 * 10 + y0
          ∧ P)) := by
  by_cases hP : P
  · simp only [eq_true hP, and_true]
    omega
  · simp only [eq_false hP, and_false, or_false]
    omega

theorem nested_digits2_lt_iff (x1 x0 y1 y0 : Nat) (P : Prop)
    (_hx1 : x1 < 10) (hx0 : x0 < 10) (_hy1 : y1 < 10) (hy0 : y0 < 10) :
    (x1 < y1 ∨ (x1 = y1 ∧ (x0 < y0 ∨ (x0 = y0 ∧ P))))
      ↔ (x1 * 10 + x0 < y1 * 10 + y0 ∨ (x1 * 10 + x0 = y1 * 10 + y0 ∧ P)) := by
  by_cases hP : P
  · simp only [eq_true hP, and_true]
    omega
  · simp only [eq_false hP, and_false, or_false]
    omega

theorem pad4_append_lt_iff {a b : Nat} (ha : a < 10000) (hb : b < 10000)
    (r1 r2 : List Char) :
    (pad4 a ++ r1 : List Char) < (pad4 b ++ r2) ↔ (a < b ∨ (a = b ∧ r1 < r2)) := by
  have h3a : a / 1000 < 10 := by omega
  have h3b : b / 1000 < 10 := by omega
  have h2a : a / 100 % 10 < 10 := Nat.mod_lt _ (by norm_num)
  have h2b : b / 100 % 10 < 10 := Nat.mod_lt _ (by norm_num)
  have h1a : a / 10 % 10 < 10 := Nat.mod_lt _ (by norm_num)
  have h1b : b / 10 % 10 < 10 := Nat.mod_lt _ (by norm_num)
  have h0a : a % 10 < 10 := Nat.mod_lt _ (by norm_num)
  have h0b : b % 10 < 10 := Nat.mod_lt _ (by norm_num)
  have ea : a / 1000 * 1000 + a / 100 % 10 * 100 + a / 10 % 10 * 10 + a % 10 = a := by
    omega
  have eb : b / 1000 * 1000 + b / 100 % 10 * 100 + b / 10 % 10 * 10 + b % 10 = b := by
    omega
  simp only [pad4, List.cons_append]
  rw [char_cons_lt_iff, digitCh_lt_iff h3a h3b, digitCh_eq_iff h3a h3b,
    char_cons_lt_iff, digitCh_lt_iff h2a h2b, digitCh_eq_iff h2a h2b,
    char_cons_lt_iff, digitCh_lt_iff h1a h1b, digitCh_eq_iff h1a h1b,
    char_cons_lt_iff, digitCh_lt_iff h0a h0b, digitCh_eq_iff h0a h0b,
    nested_digits4_lt_iff _ _ _ _ _ _ _ _ _ h3a h2a h1a h0a h3b h2b h1b h0b,
    ea, eb, List.nil_append, List.nil_append]

theorem pad2_append_lt_iff {a b : Nat} (ha : a < 100) (hb : b < 100)
    (r1 r2 : List Char) :
    (pad2 a ++ r1 : List Char) < (pad2 b ++ r2) ↔ (a < b ∨ (a = b ∧ r1 < r2)) := by
  have h1a : a / 10 < 10 := by omega
  have h1b : b / 10 < 10 := by omega
  have h0a : a % 10 < 10 := Nat.mod_lt _ (by norm_num)
  have h0b : b % 10 < 10 := Nat.mod_lt _ (by norm_num)
  have ea : a / 10 * 10 + a % 10 = a := by omega
  have eb : b / 10 * 10 + b % 10 = b := by omega
  simp only [pad2, List.cons_append]
  rw [char_cons_lt_iff, digitCh_lt_iff h1a h1b, digitCh_eq_iff h1a h1b,
    char_cons_lt_iff, digitCh_lt_iff h0a h0b, digitCh_eq_iff h0a h0b,
    nested_digits2_lt_iff _ _ _ _ _ h1a h0a h1b h0b, ea, eb,
    List.nil_append, List.nil_append]

theorem pad2_lt_iff {a b : Nat} (ha : a < 100) (hb : b < 100) :
    (pad2 a : List Char) < pad2 b ↔ a < b := by
  have h := pad2_append_lt_iff ha hb [] []
  rw [List.append_nil, List.append_nil] at h
  rw [h]
  have hnil : ¬ (([] : List Char) < ([] : List Char)) := List.Lex.not_nil_right _ _
  simp only [eq_false hnil, and_false, or_false]

theorem pad4_append_eq_iff {a b : Nat} (ha : a < 10000) (hb : b < 10000)
    (r1 r2 : List Char) :
    (pad4 a ++ r1 : List Char) = pad4 b ++ r2 ↔ (a = b ∧ r1 = r2) := by
  have h3a : a / 1000 < 10 := by omega
  have h3b : b / 1000 < 10 := by omega
  have h2a : a / 100 % 10 < 10 := Nat.mod_lt _ (by norm_num)
  have h2b : b / 100 % 10 < 10 := Nat.mod_lt _ (by norm_num)
  have h1a : a / 10 % 10 < 10 := Nat.mod_lt _ (by norm_num)
  have h1b : b / 10 % 10 < 10 := Nat.mod_lt _ (by norm_num)
  have h0a : a % 10 < 10 := Nat.mod_lt _ (by norm_num)
  have h0b : b % 10 < 10 := Nat.mod_lt _ (by norm_num)
  simp only [pad4, List.cons_append, List.cons.injEq]
  rw [digitCh_eq_iff h3a h3b, digitCh_eq_iff h2a h2b, digitCh_eq_iff h1a h1b,
    digitCh_eq_iff h0a h0b]
  constructor
  · rintro ⟨e3, e2, e1, e0, hr⟩
    refine ⟨?_, hr⟩
    calc a = a / 1000 * 1000 + a / 100 % 10 * 100 + a / 10 % 10 * 10 + a % 10 := by omega
      _ = b / 1000 * 1000 + b / 100 % 10 * 100 + b / 10 % 10 * 10 + b % 10 := by
          rw [e3, e2, e1, e0]
      _ = b := by omega
  · rintro ⟨rfl, rfl⟩
    simp

theorem pad2_append_eq_iff {a b : Nat} (ha : a < 100) (hb : b < 100)
    (r1 r2 : List Char) :
    (pad2 a ++ r1 : List Char) = pad2 b ++ r2 ↔ (a = b ∧ r1 = r2) := by
  have h1a : a / 10 < 10 := by omega
  have h1b : b / 10 < 10 := by omega
  have h0a : a % 10 < 10 := Nat.mod_lt _ (by norm_num)
  have h0b : b % 10 < 10 := Nat.mod_lt _ (by norm_num)
  simp only [pad2, List.cons_append, List.cons.injEq]
  rw [digitCh_eq_iff h1a h1b, digitCh_eq_iff h0a h0b]
  constructor
  · rintro ⟨e1, e0, hr⟩
    refine ⟨?_, hr⟩
    calc a = a / 10 * 10 + a % 10 := by omega
      _ = b / 10 * 10 + b % 10 := by rw [e1, e0]
      _ = b := by omega
  · rintro ⟨rfl, rfl⟩
    simp

theorem pad2_eq_iff {a b : Nat} (ha : a < 100) (hb : b < 100) :
    (pad2 a : List Char) = pad2 b ↔ a = b := by
  have h := pad2_append_eq_iff ha hb [] []
  rw [List.append_nil, List.append_nil] at h
  rw [h]
  simp

theorem monthKey_lt_iff {d1 d2 : Date} (hy1 : d1.year ≤ 9999) (hy2 : d2.year ≤ 9999)
    (hm1 : d1.month ≤ 99) (hm2 : d2.month ≤ 99) :
    monthKey d1 < monthKey d2 ↔
      (d1.year < d2.year ∨ (d1.year = d2.year ∧ d1.month < d2.month)) := by
  rw [String.lt_iff_toList_lt]
  show (pad4 d1.year ++ ( '-' :: pad2 d1.month) : List Char)
      < pad4 d2.year ++ ( '-' :: pad2 d2.month) ↔ _
  rw [pad4_append_lt_iff (by omega) (by omega), char_cons_lt_iff,
    pad2_lt_iff (by omega) (by omega)]
  simp [lt_self_iff_false]

theorem monthKey_eq_iff {d1 d2 : Date} (hy1 : d1.year ≤ 9999) (hy2 : d2.year ≤ 9999)
    (hm1 : d1.month ≤ 99) (hm2 : d2.month ≤ 99) :
    monthKey d1 = monthKey d2 ↔ (d1.year = d2.year ∧ d1.month = d2.month) := by
  rw [String.ext_iff]
  show (pad4 d1.year ++ ( '-' :: pad2 d1.month) : List Char)
      = pad4 d2.year ++ ( '-' :: pad2 d2.month) ↔ _
  rw [pad4_append_eq_iff (by omega) (by omega)]
  simp only [List.cons.injEq, true_and]
  rw [pad2_eq_iff (by omega) (by omega)]

theorem dayKey_lt_iff {d1 d2 : Date} (hy1 : d1.year ≤ 9999) (hy2 : d2.year ≤ 9999)
    (hm1 : d1.month ≤ 99) (hm2 : d2.month ≤ 99)
    (hd1 : d1.day ≤ 99) (hd2 : d2.day ≤ 99) :
    dayKey d1 < dayKey d2 ↔
      (d1.year < d2.year ∨ (d1.year = d2.year ∧
        (d1.month < d2.month ∨ (d1.month = d2.month ∧ d1.day < d2.day)))) := by
  rw [String.lt_iff_toList_lt]
  show (pad4 d1.year ++ ( '-' :: (pad2 d1.month ++ ( '-' :: pad2 d1.day))) : List Char)
      < pad4 d2.year ++ ( '-' :: (pad2 d2.month ++ ( '-' :: pad2 d2.day))) ↔ _
  rw [pad4_append_lt_iff (by omega) (by omega), char_cons_lt_iff,
    pad2_append_lt_iff (by omega) (by omega), char_cons_lt_iff,
    pad2_lt_iff (by omega) (by omega)]
  simp [lt_self_iff_false]

theorem dayKey_eq_iff {d1 d2 : Date} (hy1 : d1.year ≤ 9999) (hy2 : d2.year ≤ 9999)
    (hm1 : d1.month ≤ 99) (hm2 : d2.month ≤ 99)
    (hd1 : d1.day ≤ 99) (hd2 : d2.day ≤ 99) :
    dayKey d1 = dayKey d2 ↔
      (d1.year = d2.year ∧ d1.month = d2.month ∧ d1.day = d2.day) := by
  rw [String.ext_iff]
  show (pad4 d1.year ++ ( '-' :: (pad2 d1.month ++ ( '-' :: pad2 d1.day))) : List Char)
      = pad4 d2.year ++ ( '-' :: (pad2 d2.month ++ ( '-' :: pad2 d2.day))) ↔ _
  rw [pad4_append_eq_iff (by omega) (by omega)]
  simp only [List.cons.injEq, true_and]
  rw [show (pad2 d1.month ++ ( '-' :: pad2 d1.day) : List Char)
      = pad2 d1.month ++ ( '-' :: pad2 d1.day) from rfl,
    pad2_append_eq_iff (by omega) (by omega)]
  simp only [List.cons.injEq, true_and]
  rw [pad2_eq_iff (by omega) (by omega)]

theorem sum_filter_not_add (rows : List Tx) (q : Tx → Bool) :
    ((rows.filter q).map amt).sum + ((rows.filter (fun t => !q t)).map amt).sum
      = (rows.map amt).sum := by
  induction rows with
  | nil => simp
  | cons a l ih =>
    by_cases h : q a
    · simp only [List.filter_cons, h, Bool.not_true, if_true, if_false, List.map_cons,
        List.sum_cons, List.map, Bool.false_eq_true]
      linarith [ih]
    · simp only [List.filter_cons, h, if_false, List.map_cons, List.sum_cons,
        Bool.not_false, if_true, Bool.false_eq_true]
      linarith [ih]

theorem sum_over_keys (key : Tx → String) :
    ∀ (ks : List String) (rows : List Tx), ks.Nodup → (∀ t ∈ rows, key t ∈ ks) →
      (ks.map (fun k => ((rows.filter (fun t => decide (key t = k))).map amt).sum)).sum
        = (rows.map amt).sum := by
  intro ks
  induction ks with
  | nil =>
    intro rows _ hcov
    cases rows with
    | nil => simp
    | cons a l => exact absurd (hcov a (List.mem_cons_self a l)) (List.not_mem_nil _)
  | cons k ks ih =>
    intro rows hnd hcov
    rw [List.map_cons, List.sum_cons]
    have hrest : ∀ t ∈ rows.filter (fun t => !decide (key t = k)), key t ∈ ks := by
      intro t ht
      rw [List.mem_filter] at ht
      have h2 : key t ≠ k := by simpa using ht.2
      rcases List.mem_cons.mp (hcov t ht.1) with h | h
      · exact absurd h h2
      · exact h
    have heq : ∀ k' ∈ ks,
        ((rows.filter (fun t => decide (key t = k'))).map amt).sum
          = (((rows.filter (fun t => !decide (key t = k))).filter
              (fun t => decide (key t = k'))).map amt).sum := by
      intro k' hk'
      have hkk : k' ≠ k := fun h => (List.nodup_cons.mp hnd).1 (h ▸ hk')
      rw [List.filter_filter]
      congr 1
      apply congrArg (List.map amt)
      apply List.filter_congr
      intro t _
      by_cases h : key t = k'
      · simp [h, hkk]
      · simp [h]
    rw [List.map_congr_left heq,
      ih (rows.filter (fun t => !decide (key t = k))) (List.nodup_cons.mp hnd).2 hrest]
    exact sum_filter_not_add rows _

theorem tsTotals_eq_sum_groups (txs : List Tx) (lo hi : Date) (g : Granularity)
    (p : String) (q : ℚ) (hmem : (p, q) ∈ tsTotals txs lo hi g) :
    q = (((tsGrouped txs lo hi g).filter (fun e => decide (e.1 = p))).map
        (fun e => e.2.2)).sum := by
  simp only [tsTotals] at hmem
  rw [List.mem_map] at hmem
  obtain ⟨p', hp', heq⟩ := hmem
  rw [Prod.mk.injEq] at heq
  obtain ⟨h1, h2⟩ := heq
  subst h1
  subst h2
  have hR : ((tsGrouped txs lo hi g).filter (fun e => decide (e.1 = p'))).map
        (fun e => e.2.2)
      = (((tsRows txs lo hi).map
            (fun t => (periodOf g t, t.grouped_category))).dedup.filter
          (fun k => decide (k.1 = p'))).map (fun k =>
          (((tsRows txs lo hi).filter
            (fun t => decide (periodOf g t = k.1 ∧ t.grouped_category = k.2))).map amt).sum) := by
    simp only [tsGrouped, List.filter_map, List.map_map]
    rfl
  rw [hR]
  have hentry : ∀ k ∈ (((tsRows txs lo hi).map
        (fun t => (periodOf g t, t.grouped_category))).dedup.filter
        (fun k => decide (k.1 = p'))),
      (((tsRows txs lo hi).filter
          (fun t => decide (periodOf g t = k.1 ∧ t.grouped_category = k.2))).map amt).sum
        = ((((tsRows txs lo hi).filter (fun t => decide (periodOf g t = p'))).filter
            (fun t => decide (t.grouped_category = k.2))).map amt).sum := by
    intro k hk
    have hk1 : k.1 = p' := by simpa using (List.mem_filter.mp hk).2
    rw [List.filter_filter]
    congr 1
    apply congrArg (List.map amt)
    apply List.filter_congr
    intro t _
    rw [hk1]
    simp [Bool.and_comm]
  rw [List.map_congr_left hentry]
  have hmm : (((tsRows txs lo hi).map
        (fun t => (periodOf g t, t.grouped_category))).dedup.filter
        (fun k => decide (k.1 = p'))).map (fun k =>
          ((((tsRows txs lo hi).filter (fun t => decide (periodOf g t = p'))).filter
            (fun t => decide (t.grouped_category = k.2))).map amt).sum)
      = ((((tsRows txs lo hi).map
          (fun t => (periodOf g t, t.grouped_category))).dedup.filter
          (fun k => decide (k.1 = p'))).map Prod.snd).map (fun c =>
            ((((tsRows txs lo hi).filter (fun t => decide (periodOf g t = p'))).filter
              (fun t => decide (t.grouped_category = c))).map amt).sum) := by
    rw [List.map_map]
    rfl
  rw [hmm]
  have hnodup : (((((tsRows txs lo hi).map
      (fun t => (periodOf g t, t.grouped_category))).dedup.filter
      (fun k => decide (k.1 = p'))).map Prod.snd)).Nodup := by
    apply List.Nodup.map_on
    · intro x hx y hy hxy
      have hx1 : x.1 = p' := by simpa using (List.mem_filter.mp hx).2
      have hy1 : y.1 = p' := by simpa using (List.mem_filter.mp hy).2
      exact Prod.ext (hx1.trans hy1.symm) hxy
    · exact (List.nodup_dedup _).filter _
  have hcover : ∀ t ∈ (tsRows txs lo hi).filter (fun t => decide (periodOf g t = p')),
      t.grouped_category ∈ ((((tsRows txs lo hi).map
        (fun t => (periodOf g t, t.grouped_category))).dedup.filter
        (fun k => decide (k.1 = p'))).map Prod.snd) := by
    intro t ht
    have ht1 := (List.mem_filter.mp ht).1
    have htp : periodOf g t = p' := by simpa using (List.mem_filter.mp ht).2
    refine List.mem_map.mpr ⟨(periodOf g t, t.grouped_category), ?_, rfl⟩
    rw [List.mem_filter]
    refine ⟨?_, by simpa using htp⟩
    rw [List.mem_dedup]
    exact List.mem_map.mpr ⟨t, ht1, rfl⟩
  exact (sum_over_keys _ _ _ hnodup hcover).symm

/-- C7: the time series derives a month key `YYYY-MM` or day key
`YYYY-MM-DD` from each row's date; these keys order chronologically under
plain lexicographic string order; two dates of the same calendar month
share the month key, and, on distinct days, have distinct day keys; and
each per-period grand total equals the sum of that period's per-category
group sums. -/
theorem time_series_spec :
    (∀ (t : Tx) (d : Date), t.date = some d →
      periodOf .month t = monthKey d ∧ periodOf .day t = dayKey d)
    ∧ (∀ d1 d2 : Date, d1.year ≤ 9999 → d2.year ≤ 9999 → d1.month ≤ 99 → d2.month ≤ 99 →
      (monthKey d1 < monthKey d2 ↔
        (d1.year < d2.year ∨ (d1.year = d2.year ∧ d1.month < d2.month))))
    ∧ (∀ d1 d2 : Date, d1.year ≤ 9999 → d2.year ≤ 9999 → d1.month ≤ 99 → d2.month ≤ 99 →
      d1.day ≤ 99 → d2.day ≤ 99 →
      (dayKey d1 < dayKey d2 ↔
        (d1.year < d2.year ∨ (d1.year = d2.year ∧
          (d1.month < d2.month ∨ (d1.month = d2.month ∧ d1.day < d2.day))))))
    ∧ (∀ d1 d2 : Date, d1.year = d2.year → d1.month = d2.month →
        monthKey d1 = monthKey d2)
    ∧ (∀ d1 d2 : Date, d1.year ≤ 9999 → d2.year ≤ 9999 → d1.month ≤ 99 → d2.month ≤ 99 →
        d1.day ≤ 99 → d2.day ≤ 99 → d1.day ≠ d2.day → dayKey d1 ≠ dayKey d2)
    ∧ (∀ (txs : List Tx) (lo hi : Date) (g : Granularity) (p : String) (q : ℚ),
        (p, q) ∈ tsTotals txs lo hi g →
        q = (((tsGrouped txs lo hi g).filter (fun e => decide (e.1 = p))).map
            (fun e => e.2.2)).sum) := by
  refine ⟨?_, ?_, ?_, ?_, ?_, tsTotals_eq_sum_groups⟩
  · intro t d hd
    constructor <;> simp [periodOf, hd]
  · intro d1 d2 h1 h2 h3 h4
    exact monthKey_lt_iff h1 h2 h3 h4
  · intro d1 d2 h1 h2 h3 h4 h5 h6
    exact dayKey_lt_iff h1 h2 h3 h4 h5 h6
  · intro d1 d2 hy hm
    simp [monthKey, hy, hm]
  · intro d1 d2 h1 h2 h3 h4 h5 h6 hday hk
    exact hday ((dayKey_eq_iff h1 h2 h3 h4 h5 h6).mp hk).2.2

/-- Witness for C7 at concrete dates and the January collection: key
formats, chronological ordering, same-month merging, distinct-day
separation, and the grand total 80 of the single month bucket. -/
theorem time_series_spec_witness :
    periodOf .month ⟨some ⟨2024, 1, 5⟩, none, none, some 5, "Chase", "Other"⟩ = "2024-01"
    ∧ periodOf .day ⟨some ⟨2024, 1, 5⟩, none, none, some 5, "Chase", "Other"⟩ = "2024-01-05"
    ∧ monthKey ⟨2024, 1, 5⟩ < monthKey ⟨2024, 2, 1⟩
    ∧ monthKey ⟨2024, 1, 5⟩ = monthKey ⟨2024, 1, 17⟩
    ∧ dayKey ⟨2024, 1, 5⟩ ≠ dayKey ⟨2024, 1, 17⟩
    ∧ (80 : ℚ) = (((tsGrouped janTxs ⟨2024, 1, 1⟩ ⟨2024, 12, 31⟩ .month).filter
        (fun e => decide (e.1 = "2024-01"))).map (fun e => e.2.2)).sum := by
  refine ⟨?_, ?_, ?_, ?_, ?_, ?_⟩
  · exact ((time_series_spec.1 _ ⟨2024, 1, 5⟩ rfl).1).trans (by decide)
  · exact ((time_series_spec.1 _ ⟨2024, 1, 5⟩ rfl).2).trans (by decide)
  · exact (time_series_spec.2.1 ⟨2024, 1, 5⟩ ⟨2024, 2, 1⟩ (by decide) (by decide)
      (by decide) (by decide)).mpr (by decide)
  · exact time_series_spec.2.2.2.1 ⟨2024, 1, 5⟩ ⟨2024, 1, 17⟩ rfl rfl
  · exact time_series_spec.2.2.2.2.1 ⟨2024, 1, 5⟩ ⟨2024, 1, 17⟩ (by decide) (by decide)
      (by decide) (by decide) (by decide) (by decide) (by decide)
  · have htot : tsTotals janTxs ⟨2024, 1, 1⟩ ⟨2024, 12, 31⟩ .month
        = [("2024-01", (80 : ℚ))] := by with_unfolding_all rfl
    exact time_series_spec.2.2.2.2.2 janTxs ⟨2024, 1, 1⟩ ⟨2024, 12, 31⟩ .month
      "2024-01" 80 (by rw [htot]; exact List.mem_singleton.mpr rfl)
